import Mathlib

/-!
Verification development for the billyfs adapter (absfs/billyfs).

The repository adapts an `absfs.SymlinkFileSystem` (the source filesystem
interface, "SFS") to the `go-billy/v5` filesystem interface.  The adapter is
pure delegation: every method makes at most a couple of calls on external
collaborators (the wrapped SFS, the basefs chroot helper, the Go standard
library).  We embed the adapter shallowly:

* external collaborators are an oracle record `Env` of uninterpreted
  functions; each embedded adapter method returns its Go result together
  with the list of external calls it performed (`List Call`), so that
  short-circuiting, call counts, call order and call arguments are provable;
* Go `(T, error)` returns become `Option T × Option GoErr` (nil pointers are
  `none`) or `Except GoErr T` where only one of the pair is ever populated;
* Go's `fmt.Errorf("...: %w", err)` becomes the `GoErr.wrapped` constructor,
  and `errIs` models `errors.Is`;
* the package-level random source is an oracle `g : Nat → Fin 52` giving the
  successive results of `rng.Intn(52)` (whose contract is a value below the
  bound); the embedding records each draw and each mutex operation in the
  call trace, so the absence of locking around draws is a provable fact;
* for the write/read round-trip we additionally give a small executable
  model of the backing store (an association list of file contents plus open
  handles) with the POSIX-like semantics the spec attributes to the SFS
  collaborator, and run the adapter's composition over it.

Functions are embedded from `billyfs.go` (the adapter filesystem methods)
and `billyfile.go` (the adapter file methods).  Definitions that are not a
translation of repository source are marked in their doc comment: either
they model documented behavior of an external collaborator (Go stdlib
`path/filepath`, go-billy constants, basefs queries), or they are labelled
`Modelled from the spec:`.
-/

/-- Go error values as the adapter observes them: `os.ErrInvalid`, values
made by `errors.New(msg)`, the `io.EOF` sentinel, and wrapping via
`fmt.Errorf(msg ++ ": %w", inner)`. -/
inductive GoErr where
  | errInvalid : GoErr
  | errNew (msg : String) : GoErr
  | eof : GoErr
  | wrapped (msg : String) (inner : GoErr) : GoErr
deriving DecidableEq, Repr

/-- Model of Go `errors.Is err target`: the error equals the target, or it
wraps (possibly repeatedly) an error that does. -/
def errIs : GoErr → GoErr → Bool
  | e@(GoErr.wrapped _ inner), target => e = target || errIs inner target
  | e, target => e = target

/-- The part of `os.FileInfo` the adapter consults. -/
structure FileInfo where
  fname : String
  size : Int
  dirFlag : Bool
deriving DecidableEq, Repr

/-- An `absfs.SymlinkFileSystem` value as a first-order datum: the nil
interface (Go zero value), an unwrapped base filesystem (with a flag saying
whether the value is symlink-capable), or a basefs isolation wrapper with
its base path. -/
inductive SFS where
  | nilFS : SFS
  | base (id : Nat) (symcap : Bool) : SFS
  | isolated (inner : SFS) (basePath : String) : SFS
deriving DecidableEq, Repr

/-- The adapter type: `billyfs.Filesystem` holds exactly one field, the
wrapped SFS (`fs absfs.SymlinkFileSystem`). -/
structure Filesystem where
  fs : SFS
deriving DecidableEq, Repr

/-- The adapter file type: `billyfs.File` holds the inner `absfs.File`
handle (modelled by a numeric handle id) plus a mutex used only by
Lock/Unlock. -/
structure FileA where
  f : Nat
deriving DecidableEq, Repr

/-- One observable call on an external collaborator (the wrapped SFS, the
basefs helper, a file handle, the package RNG, or a mutex). -/
inductive Call where
  | statC (fs : SFS) (name : String)
  | lstatC (fs : SFS) (name : String)
  | basefsNewFSC (fs : SFS) (dir : String)
  | getwdC (fs : SFS)
  | tempDirC (fs : SFS)
  | createC (fs : SFS) (name : String)
  | openC (fs : SFS) (name : String)
  | openFileC (fs : SFS) (name : String) (flag : Nat) (perm : Nat)
  | renameC (fs : SFS) (oldp : String) (newp : String)
  | removeC (fs : SFS) (name : String)
  | mkdirAllC (fs : SFS) (name : String) (perm : Nat)
  | chmodC (fs : SFS) (name : String) (mode : Nat)
  | chownC (fs : SFS) (name : String) (uid gid : Int)
  | lchownC (fs : SFS) (name : String) (uid gid : Int)
  | chtimesC (fs : SFS) (name : String) (atime mtime : Int)
  | symlinkC (fs : SFS) (target lnk : String)
  | readlinkC (fs : SFS) (lnk : String)
  | readdirC (h : Nat) (n : Nat)
  | closeC (h : Nat)
  | randIntnC (bound : Nat)
  | lockC (m : String)
  | unlockC (m : String)
deriving DecidableEq, Repr

/-- The SFS receiver of a call, when the call targets a filesystem value
(rather than an already-open handle, the RNG, or a mutex). -/
def callReceiver : Call → Option SFS
  | Call.statC fs _ => some fs
  | Call.lstatC fs _ => some fs
  | Call.basefsNewFSC fs _ => some fs
  | Call.getwdC fs => some fs
  | Call.tempDirC fs => some fs
  | Call.createC fs _ => some fs
  | Call.openC fs _ => some fs
  | Call.openFileC fs _ _ _ => some fs
  | Call.renameC fs _ _ => some fs
  | Call.removeC fs _ => some fs
  | Call.mkdirAllC fs _ _ => some fs
  | Call.chmodC fs _ _ => some fs
  | Call.chownC fs _ _ _ => some fs
  | Call.lchownC fs _ _ _ => some fs
  | Call.chtimesC fs _ _ _ => some fs
  | Call.symlinkC fs _ _ => some fs
  | Call.readlinkC fs _ => some fs
  | Call.readdirC _ _ => none
  | Call.closeC _ => none
  | Call.randIntnC _ => none
  | Call.lockC _ => none
  | Call.unlockC _ => none

/-- Whether a call is a mutex acquisition or release. -/
def isLockOp : Call → Bool
  | Call.lockC _ => true
  | Call.unlockC _ => true
  | _ => false

/-- Whether a call is a Create call on a filesystem. -/
def isCreateCall : Call → Bool
  | Call.createC _ _ => true
  | _ => false

/-- Oracle for all external collaborators the adapter calls into.  Each
field is the (uninterpreted) result of the identically-named external
operation; the file-handle operations return a count/position plus an
optional error exactly as their Go signatures do. -/
structure Env where
  stat : SFS → String → Except GoErr FileInfo
  lstatE : SFS → String → Except GoErr FileInfo
  basefsNewFS : SFS → String → Except GoErr SFS
  getwdE : SFS → String
  tempDirE : SFS → String
  createE : SFS → String → Except GoErr Nat
  openE : SFS → String → Except GoErr Nat
  openFileE : SFS → String → Nat → Nat → Except GoErr Nat
  renameE : SFS → String → String → Option GoErr
  removeE : SFS → String → Option GoErr
  mkdirAllE : SFS → String → Nat → Option GoErr
  chmodE : SFS → String → Nat → Option GoErr
  chownE : SFS → String → Int → Int → Option GoErr
  lchownE : SFS → String → Int → Int → Option GoErr
  chtimesE : SFS → String → Int → Int → Option GoErr
  symlinkE : SFS → String → String → Option GoErr
  readlinkE : SFS → String → Except GoErr String
  readdirE : Nat → Nat → Except GoErr (List FileInfo)
  closeE : Nat → Option GoErr
  fnameE : Nat → String
  readH : Nat → Nat → Nat × Option GoErr
  writeH : Nat → List Nat → Nat × Option GoErr
  readAtH : Nat → Nat → Int → Nat × Option GoErr
  writeAtH : Nat → List Nat → Int → Nat × Option GoErr
  seekH : Nat → Int → Nat → Int × Option GoErr
  truncateH : Nat → Int → Option GoErr
  closeH : Nat → Option GoErr

/-- Go `filepath.IsAbs` on unix: the path begins with a slash. -/
def isAbs (p : String) : Bool :=
  match p.data with
  | c :: _ => c = '/'
  | [] => false

/-- Split a character list on slashes (the components of a path, as
`strings.Split` on `/` would produce them). -/
def splitSlash : List Char → List (List Char)
  | [] => [[]]
  | c :: rest =>
    if c = '/' then [] :: splitSlash rest
    else
      match splitSlash rest with
      | s :: ss => (c :: s) :: ss
      | [] => [[c]]

/-- Join path components with slashes. -/
def interSlash : List (List Char) → List Char
  | [] => []
  | [s] => s
  | s :: rest => s ++ '/' :: interSlash rest

/-- Stack step of Go `path.Clean`: process one path component against the
stack of kept components (held reversed).  Empty and `.` components are
dropped; `..` pops a poppable component, is dropped at the root when the
path is rooted, and is kept otherwise; any other component is pushed. -/
def cleanStep (rooted : Bool) : List (List Char) → List (List Char) → List (List Char)
  | stack, [] => stack.reverse
  | stack, c :: rest =>
    if c = [] ∨ c = ['.'] then cleanStep rooted stack rest
    else if c = ['.', '.'] then
      match stack with
      | top :: more =>
        if top = ['.', '.'] then cleanStep rooted (['.', '.'] :: top :: more) rest
        else cleanStep rooted more rest
      | [] =>
        if rooted then cleanStep rooted [] rest
        else cleanStep rooted [['.', '.']] rest
    else cleanStep rooted (c :: stack) rest

/-- Go `path.Clean` (equal to unix `filepath.Clean`): modelled from the Go
standard library's documented semantics (iteratively eliminate empty, `.`
and `..` components; a cleaned empty path is `.`). -/
def goClean (p : String) : String :=
  if p.data = [] then "."
  else
    let rooted := isAbs p
    let out := interSlash (cleanStep rooted [] (splitSlash p.data))
    if rooted then String.mk ('/' :: out)
    else if out = [] then "." else String.mk out

/-- Go unix `filepath.Join`: drop leading empty elements, join the rest with
slashes, and Clean the result; all-empty input gives the empty string.
Modelled from the Go standard library. -/
def goJoin (elems : List String) : String :=
  match elems.dropWhile (fun e => e.data = []) with
  | [] => ""
  | rest => goClean (String.mk (interSlash (rest.map String.data)))

/-- The alphabet string literal of `randSeq` in billyfs.go. -/
def letters : List Char :=
  "abcdefghijklmnopqrstuvwxyzABCDEFGHIJKLMNOPQRSTUVWXYZ".toList

theorem letters_length : letters.length = 52 := by decide

/-- Embedding of `randSeq(n)` from billyfs.go: draw `rng.Intn(52)` for each
of the `n` positions and index into `letters`.  The oracle `g` gives the
successive `Intn` results (its `Fin 52` codomain is `Intn`'s contract of a
result below the bound).  The second component is the call trace: the body
performs the `n` RNG draws and nothing else — in particular it acquires no
mutex. -/
def randSeq (g : Nat → Fin 52) (n : Nat) : String × List Call :=
  (String.mk ((List.range n).map (fun i => letters.get (Fin.cast letters_length.symm (g i)))),
   (List.range n).map (fun _ => Call.randIntnC 52))

/-- Embedding of `NewFS(fs, dir)` from billyfs.go: validate that `dir` is
nonempty, absolute, stats successfully and is a directory, then apply the
basefs chroot helper and wrap its result.  Returns the Go
`(*Filesystem, error)` pair plus the trace of external calls. -/
def newFS (env : Env) (fs : SFS) (dir : String) :
    (Option Filesystem × Option GoErr) × List Call :=
  if dir = "" then ((none, some GoErr.errInvalid), [])
  else if !isAbs dir then ((none, some (GoErr.errNew "not an absolute path")), [])
  else
    match env.stat fs dir with
    | Except.error e => ((none, some e), [Call.statC fs dir])
    | Except.ok info =>
      if !info.dirFlag then
        ((none, some (GoErr.errNew "not a directory")), [Call.statC fs dir])
      else
        match env.basefsNewFS fs dir with
        | Except.error e =>
          ((none, some e), [Call.statC fs dir, Call.basefsNewFSC fs dir])
        | Except.ok fs2 =>
          ((some ⟨fs2⟩, none), [Call.statC fs dir, Call.basefsNewFSC fs dir])

/-- Embedding of `Chroot(path)` from billyfs.go: apply the basefs chroot
helper to the current inner SFS and the path argument as given; on failure
return a pointer to a zero-value `Filesystem` (whose inner SFS field is the
nil interface) together with the error, otherwise wrap the new isolated SFS
in a new adapter. -/
def chroot (env : Env) (f : Filesystem) (p : String) :
    (Option Filesystem × Option GoErr) × List Call :=
  match env.basefsNewFS f.fs p with
  | Except.error e => ((some ⟨SFS.nilFS⟩, some e), [Call.basefsNewFSC f.fs p])
  | Except.ok fs2 => ((some ⟨fs2⟩, none), [Call.basefsNewFSC f.fs p])

/-- Innermost unwrapped form of an SFS, peeling every isolation wrapper.
Models the basefs `Unwrap` query of the chroot helper (an external
collaborator), as documented in the repository's interface notes. -/
def unwrapSFS : SFS → SFS
  | SFS.isolated inner _ => unwrapSFS inner
  | s => s

/-- Base path of an isolation wrapper, empty for unwrapped values.  Models
the basefs `Prefix` query of the chroot helper (an external collaborator). -/
def basefsPre : SFS → String
  | SFS.isolated _ b => b
  | _ => ""

/-- Whether an SFS value satisfies the symlink-capable interface. -/
def symlinkCapable : SFS → Bool
  | SFS.nilFS => false
  | SFS.base _ c => c
  | SFS.isolated _ _ => true

/-- Modelled from the spec: the filesystem and path §4.3 says `Chroot`
hands to the chroot helper — the path resolved to absolute (used as-is if
absolute, otherwise joined against the inner SFS's working directory and
then the adapter's base prefix), and the inner SFS unwrapped to its
innermost non-isolated form when that form is still symlink-capable
(falling back to the current wrapped SFS otherwise). -/
def chrootSpecArgs (cwd : String) (f : Filesystem) (p : String) : SFS × String :=
  let resolved := if isAbs p then p else goJoin [basefsPre f.fs, goJoin [cwd, p]]
  let u := unwrapSFS f.fs
  let target := if symlinkCapable u then u else f.fs
  (target, resolved)

/-- Embedding of `Root()` from billyfs.go: the basefs prefix of the inner
SFS, with `/` substituted when that prefix is empty. -/
def rootM (f : Filesystem) : String :=
  let p := basefsPre f.fs
  if p = "" then "/" else p

/-- The go-billy `AllCapabilities` constant (the bitwise-or of all six
capability bits of go-billy v5); modelled from the go-billy library. -/
def allCapabilities : Nat := 63

/-- Embedding of `Capabilities()` from billyfs.go: the constant
`billy.AllCapabilities`, never consulting the wrapped filesystem. -/
def capabilitiesM (_f : Filesystem) : Nat := allCapabilities

/-- Embedding of `ReadDir(path)` from billyfs.go: open the path on the inner
SFS, read all entries with a single `Readdir(0)` call, and close the handle
unconditionally (via `defer`) before returning; the close result is
discarded. -/
def readDirM (env : Env) (f : Filesystem) (p : String) :
    (Option (List FileInfo) × Option GoErr) × List Call :=
  match env.openE f.fs p with
  | Except.error e => ((none, some e), [Call.openC f.fs p])
  | Except.ok h =>
    match env.readdirE h 0 with
    | Except.error e =>
      ((none, some e), [Call.openC f.fs p, Call.readdirC h 0, Call.closeC h])
    | Except.ok l =>
      ((some l, none), [Call.openC f.fs p, Call.readdirC h 0, Call.closeC h])

/-- Embedding of `TempFile(dir, prefix)` from billyfs.go: after the
idempotent RNG initialization, the target directory is `dir` when nonempty
and the inner SFS's TempDir otherwise; the candidate path joins the target
directory with the prefix, an underscore and a 5-character random suffix;
a single Create call is made and its handle wrapped (or its error returned
unchanged). -/
def tempFileM (env : Env) (g : Nat → Fin 52) (f : Filesystem) (dir pre : String) :
    (Option FileA × Option GoErr) × List Call :=
  let td := if dir = "" then env.tempDirE f.fs else dir
  let tdTrace := if dir = "" then [Call.tempDirC f.fs] else []
  let p := goJoin [td, pre ++ "_" ++ (randSeq g 5).1]
  match env.createE f.fs p with
  | Except.error e => ((none, some e), tdTrace ++ (randSeq g 5).2 ++ [Call.createC f.fs p])
  | Except.ok h => ((some ⟨h⟩, none), tdTrace ++ (randSeq g 5).2 ++ [Call.createC f.fs p])

/-- Embedding of `Create(filename)` from billyfs.go: delegate to the inner
SFS Create and wrap the returned handle in a `File` adapter. -/
def createM (env : Env) (f : Filesystem) (name : String) :
    (Option FileA × Option GoErr) × List Call :=
  match env.createE f.fs name with
  | Except.error e => ((none, some e), [Call.createC f.fs name])
  | Except.ok h => ((some ⟨h⟩, none), [Call.createC f.fs name])

/-- Embedding of `Open(filename)` from billyfs.go. -/
def openM (env : Env) (f : Filesystem) (name : String) :
    (Option FileA × Option GoErr) × List Call :=
  match env.openE f.fs name with
  | Except.error e => ((none, some e), [Call.openC f.fs name])
  | Except.ok h => ((some ⟨h⟩, none), [Call.openC f.fs name])

/-- Embedding of `OpenFile(filename, flag, perm)` from billyfs.go. -/
def openFileM (env : Env) (f : Filesystem) (name : String) (flag perm : Nat) :
    (Option FileA × Option GoErr) × List Call :=
  match env.openFileE f.fs name flag perm with
  | Except.error e => ((none, some e), [Call.openFileC f.fs name flag perm])
  | Except.ok h => ((some ⟨h⟩, none), [Call.openFileC f.fs name flag perm])

/-- Embedding of `Stat(filename)` from billyfs.go: pure delegation. -/
def statM (env : Env) (f : Filesystem) (name : String) :
    Except GoErr FileInfo × List Call :=
  (env.stat f.fs name, [Call.statC f.fs name])

/-- Embedding of `Lstat(filename)` from billyfs.go: pure delegation. -/
def lstatM (env : Env) (f : Filesystem) (name : String) :
    Except GoErr FileInfo × List Call :=
  (env.lstatE f.fs name, [Call.lstatC f.fs name])

/-- Embedding of `Rename(oldpath, newpath)` from billyfs.go. -/
def renameM (env : Env) (f : Filesystem) (o n : String) : Option GoErr × List Call :=
  (env.renameE f.fs o n, [Call.renameC f.fs o n])

/-- Embedding of `Remove(filename)` from billyfs.go. -/
def removeM (env : Env) (f : Filesystem) (name : String) : Option GoErr × List Call :=
  (env.removeE f.fs name, [Call.removeC f.fs name])

/-- Embedding of `MkdirAll(filename, perm)` from billyfs.go. -/
def mkdirAllM (env : Env) (f : Filesystem) (name : String) (perm : Nat) :
    Option GoErr × List Call :=
  (env.mkdirAllE f.fs name perm, [Call.mkdirAllC f.fs name perm])

/-- Embedding of `Chmod(name, mode)` from billyfs.go. -/
def chmodM (env : Env) (f : Filesystem) (name : String) (mode : Nat) :
    Option GoErr × List Call :=
  (env.chmodE f.fs name mode, [Call.chmodC f.fs name mode])

/-- Embedding of `Chown(name, uid, gid)` from billyfs.go. -/
def chownM (env : Env) (f : Filesystem) (name : String) (uid gid : Int) :
    Option GoErr × List Call :=
  (env.chownE f.fs name uid gid, [Call.chownC f.fs name uid gid])

/-- Embedding of `Lchown(name, uid, gid)` from billyfs.go. -/
def lchownM (env : Env) (f : Filesystem) (name : String) (uid gid : Int) :
    Option GoErr × List Call :=
  (env.lchownE f.fs name uid gid, [Call.lchownC f.fs name uid gid])

/-- Embedding of `Chtimes(name, atime, mtime)` from billyfs.go. -/
def chtimesM (env : Env) (f : Filesystem) (name : String) (atime mtime : Int) :
    Option GoErr × List Call :=
  (env.chtimesE f.fs name atime mtime, [Call.chtimesC f.fs name atime mtime])

/-- Embedding of `Symlink(target, link)` from billyfs.go. -/
def symlinkM (env : Env) (f : Filesystem) (target lnk : String) :
    Option GoErr × List Call :=
  (env.symlinkE f.fs target lnk, [Call.symlinkC f.fs target lnk])

/-- Embedding of `Readlink(link)` from billyfs.go. -/
def readlinkM (env : Env) (f : Filesystem) (lnk : String) :
    Except GoErr String × List Call :=
  (env.readlinkE f.fs lnk, [Call.readlinkC f.fs lnk])

/-- Embedding of `Join(elem...)` from billyfs.go: `filepath.Join`, no
filesystem access. -/
def joinFS (_f : Filesystem) (elems : List String) : String := goJoin elems

/-- Embedding of `File.Write` from billyfile.go: delegate to the inner
handle's Write; a non-nil error is wrapped with a `write <name>` prefix via
`fmt.Errorf` with the `%w` verb, the count is returned unchanged. -/
def fileWrite (env : Env) (fl : FileA) (p : List Nat) : Nat × Option GoErr :=
  match env.writeH fl.f p with
  | (n, some e) => (n, some (GoErr.wrapped ("write " ++ env.fnameE fl.f) e))
  | (n, none) => (n, none)

/-- Embedding of `File.Read` from billyfile.go (the buffer is passed by its
length, which is all the inner call's count and error can depend on in this
delegation layer). -/
def fileRead (env : Env) (fl : FileA) (bufLen : Nat) : Nat × Option GoErr :=
  match env.readH fl.f bufLen with
  | (n, some e) => (n, some (GoErr.wrapped ("read " ++ env.fnameE fl.f) e))
  | (n, none) => (n, none)

/-- Embedding of `File.ReadAt` from billyfile.go. -/
def fileReadAt (env : Env) (fl : FileA) (bufLen : Nat) (off : Int) : Nat × Option GoErr :=
  match env.readAtH fl.f bufLen off with
  | (n, some e) =>
    (n, some (GoErr.wrapped ("readat " ++ env.fnameE fl.f ++ " (offset=" ++ toString off ++ ")") e))
  | (n, none) => (n, none)

/-- Embedding of `File.WriteAt` from billyfile.go. -/
def fileWriteAt (env : Env) (fl : FileA) (p : List Nat) (off : Int) : Nat × Option GoErr :=
  match env.writeAtH fl.f p off with
  | (n, some e) =>
    (n, some (GoErr.wrapped ("writeat " ++ env.fnameE fl.f ++ " (offset=" ++ toString off ++ ")") e))
  | (n, none) => (n, none)

/-- Embedding of `File.Seek` from billyfile.go. -/
def fileSeek (env : Env) (fl : FileA) (off : Int) (whence : Nat) : Int × Option GoErr :=
  match env.seekH fl.f off whence with
  | (pos, some e) =>
    (pos, some (GoErr.wrapped
      ("seek " ++ env.fnameE fl.f ++ " (offset=" ++ toString off ++ ", whence=" ++ toString whence ++ ")") e))
  | (pos, none) => (pos, none)

/-- Embedding of `File.Close` from billyfile.go. -/
def fileClose (env : Env) (fl : FileA) : Option GoErr :=
  match env.closeH fl.f with
  | some e => some (GoErr.wrapped ("close " ++ env.fnameE fl.f) e)
  | none => none

/-- Embedding of `File.Truncate` from billyfile.go. -/
def fileTruncate (env : Env) (fl : FileA) (size : Int) : Option GoErr :=
  match env.truncateH fl.f size with
  | some e =>
    some (GoErr.wrapped ("truncate " ++ env.fnameE fl.f ++ " to " ++ toString size ++ " bytes") e)
  | none => none

/-- One invocation of a `Filesystem` method, with its arguments. -/
inductive FSOp where
  | createOp (name : String)
  | openOp (name : String)
  | openFileOp (name : String) (flag perm : Nat)
  | statOp (name : String)
  | lstatOp (name : String)
  | renameOp (o n : String)
  | removeOp (name : String)
  | mkdirAllOp (name : String) (perm : Nat)
  | chmodOp (name : String) (mode : Nat)
  | chownOp (name : String) (uid gid : Int)
  | lchownOp (name : String) (uid gid : Int)
  | chtimesOp (name : String) (atime mtime : Int)
  | symlinkOp (target lnk : String)
  | readlinkOp (lnk : String)
  | joinOp (elems : List String)
  | capabilitiesOp
  | readDirOp (p : String)
  | chrootOp (p : String)
  | rootOp
  | tempFileOp (dir pre : String)
deriving DecidableEq, Repr

deriving instance DecidableEq for Except

/-- Result of a `Filesystem` method call, shaped like the Go return values
(`none` standing for a nil pointer or nil error). -/
inductive FSResult where
  | fileR (r : Option FileA × Option GoErr)
  | infoR (r : Except GoErr FileInfo)
  | errR (r : Option GoErr)
  | strR (s : String)
  | linkR (r : Except GoErr String)
  | listR (r : Option (List FileInfo) × Option GoErr)
  | capR (c : Nat)
  | fsR (r : Option Filesystem × Option GoErr)
deriving DecidableEq, Repr

/-- Dispatch a `Filesystem` method call to its embedding.  The third
component of the result is the receiver's state after the call: no method
of `billyfs.Filesystem` assigns to the receiver's `fs` field, so every
dispatch returns the receiver it was given. -/
def runFSOp (env : Env) (g : Nat → Fin 52) (f : Filesystem) :
    FSOp → FSResult × List Call × Filesystem
  | FSOp.createOp name =>
    let r := createM env f name; (FSResult.fileR r.1, r.2, f)
  | FSOp.openOp name =>
    let r := openM env f name; (FSResult.fileR r.1, r.2, f)
  | FSOp.openFileOp name flag perm =>
    let r := openFileM env f name flag perm; (FSResult.fileR r.1, r.2, f)
  | FSOp.statOp name =>
    let r := statM env f name; (FSResult.infoR r.1, r.2, f)
  | FSOp.lstatOp name =>
    let r := lstatM env f name; (FSResult.infoR r.1, r.2, f)
  | FSOp.renameOp o n =>
    let r := renameM env f o n; (FSResult.errR r.1, r.2, f)
  | FSOp.removeOp name =>
    let r := removeM env f name; (FSResult.errR r.1, r.2, f)
  | FSOp.mkdirAllOp name perm =>
    let r := mkdirAllM env f name perm; (FSResult.errR r.1, r.2, f)
  | FSOp.chmodOp name mode =>
    let r := chmodM env f name mode; (FSResult.errR r.1, r.2, f)
  | FSOp.chownOp name uid gid =>
    let r := chownM env f name uid gid; (FSResult.errR r.1, r.2, f)
  | FSOp.lchownOp name uid gid =>
    let r := lchownM env f name uid gid; (FSResult.errR r.1, r.2, f)
  | FSOp.chtimesOp name atime mtime =>
    let r := chtimesM env f name atime mtime; (FSResult.errR r.1, r.2, f)
  | FSOp.symlinkOp target lnk =>
    let r := symlinkM env f target lnk; (FSResult.errR r.1, r.2, f)
  | FSOp.readlinkOp lnk =>
    let r := readlinkM env f lnk; (FSResult.linkR r.1, r.2, f)
  | FSOp.joinOp elems => (FSResult.strR (joinFS f elems), [], f)
  | FSOp.capabilitiesOp => (FSResult.capR (capabilitiesM f), [], f)
  | FSOp.readDirOp p =>
    let r := readDirM env f p; (FSResult.listR r.1, r.2, f)
  | FSOp.chrootOp p =>
    let r := chroot env f p; (FSResult.fsR r.1, r.2, f)
  | FSOp.rootOp => (FSResult.strR (rootM f), [], f)
  | FSOp.tempFileOp dir pre =>
    let r := tempFileM env g f dir pre; (FSResult.fileR r.1, r.2, f)

/-- Whether a `Filesystem` method delegates to the inner SFS (issues at
least one external call carrying the inner SFS value).  `Join` and
`Capabilities` are pure, and `Root` only applies the basefs prefix query to
the inner value without dispatching a method on it. -/
def delegatesToInner : FSOp → Bool
  | FSOp.joinOp _ => false
  | FSOp.capabilitiesOp => false
  | FSOp.rootOp => false
  | _ => true

/-- The adapter returned by a failed `Chroot`: a pointer to the zero value
of `Filesystem`, whose inner SFS field is the nil interface. -/
def zeroAdapter : Filesystem := ⟨SFS.nilFS⟩

/-- Lookup in an association list by key. -/
def assocGet {α β : Type} [DecidableEq α] : List (α × β) → α → Option β
  | [], _ => none
  | (k, v) :: rest, key => if k = key then some v else assocGet rest key

/-- Insert or replace a binding in an association list. -/
def assocSet {α β : Type} [DecidableEq α] : List (α × β) → α → β → List (α × β)
  | [], key, v => [(key, v)]
  | (k, w) :: rest, key, v =>
    if k = key then (key, v) :: rest else (k, w) :: assocSet rest key v

/-- State of one open handle in the backing-store model: the file it names,
the read/write position, and whether it has been closed. -/
structure HandleSt where
  hname : String
  pos : Nat
  closed : Bool
deriving DecidableEq, Repr

/-- Modelled from the spec: an executable model of the wrapped SFS backing
store (the external collaborator the adapter delegates to), with the
POSIX-like file semantics the spec attributes to it — file contents as byte
lists, create-truncates-or-creates, sequential read/write through a
position, reads at end of file reporting EOF. -/
structure World where
  files : List (String × List Nat)
  handles : List (Nat × HandleSt)
  nextH : Nat
deriving DecidableEq, Repr

/-- Modelled from the spec: backing-store Create — truncate-or-new, and a
fresh handle at position zero. -/
def mCreate (w : World) (name : String) : Except GoErr Nat × World :=
  (Except.ok w.nextH,
   ⟨assocSet w.files name [], assocSet w.handles w.nextH ⟨name, 0, false⟩, w.nextH + 1⟩)

/-- Modelled from the spec: backing-store Open — a fresh read handle at
position zero when the file exists, an error otherwise. -/
def mOpen (w : World) (name : String) : Except GoErr Nat × World :=
  match assocGet w.files name with
  | none => (Except.error (GoErr.errNew "file does not exist"), w)
  | some _ =>
    (Except.ok w.nextH, ⟨w.files, assocSet w.handles w.nextH ⟨name, 0, false⟩, w.nextH + 1⟩)

/-- Modelled from the spec: backing-store Write — overwrite at the handle's
position and advance it; fails on closed or dangling handles. -/
def mWrite (w : World) (h : Nat) (p : List Nat) : (Nat × Option GoErr) × World :=
  match assocGet w.handles h with
  | none => ((0, some (GoErr.errNew "invalid handle")), w)
  | some hs =>
    if hs.closed then ((0, some (GoErr.errNew "file already closed")), w)
    else
      match assocGet w.files hs.hname with
      | none => ((0, some (GoErr.errNew "file does not exist")), w)
      | some content =>
        let nc := content.take hs.pos ++ p ++ content.drop (hs.pos + p.length)
        ((p.length, none),
         ⟨assocSet w.files hs.hname nc,
          assocSet w.handles h ⟨hs.hname, hs.pos + p.length, false⟩, w.nextH⟩)

/-- Modelled from the spec: backing-store Read — up to `n` bytes from the
handle's position, advancing it, with EOF reported at end of file. -/
def mRead (w : World) (h : Nat) (n : Nat) : (List Nat × Option GoErr) × World :=
  match assocGet w.handles h with
  | none => (([], some (GoErr.errNew "invalid handle")), w)
  | some hs =>
    if hs.closed then (([], some (GoErr.errNew "file already closed")), w)
    else
      match assocGet w.files hs.hname with
      | none => (([], some (GoErr.errNew "file does not exist")), w)
      | some content =>
        if content.length ≤ hs.pos then (([], some GoErr.eof), w)
        else
          let bs := (content.drop hs.pos).take n
          ((bs, none),
           ⟨w.files, assocSet w.handles h ⟨hs.hname, hs.pos + bs.length, false⟩, w.nextH⟩)

/-- Modelled from the spec: backing-store Close — marks the handle closed. -/
def mClose (w : World) (h : Nat) : Option GoErr × World :=
  match assocGet w.handles h with
  | none => (some (GoErr.errNew "invalid handle"), w)
  | some hs =>
    if hs.closed then (some (GoErr.errNew "file already closed"), w)
    else (none, ⟨w.files, assocSet w.handles h ⟨hs.hname, hs.pos, true⟩, w.nextH⟩)

/-- Name reported by a backing-store handle. -/
def mName (w : World) (h : Nat) : String :=
  match assocGet w.handles h with
  | none => ""
  | some hs => hs.hname

/-- The adapter's `Create` run over the backing-store model: delegate and
wrap the handle (billyfs.go `Create`). -/
def bCreate (w : World) (name : String) : (Option FileA × Option GoErr) × World :=
  match mCreate w name with
  | (Except.error e, w') => ((none, some e), w')
  | (Except.ok h, w') => ((some ⟨h⟩, none), w')

/-- The adapter's `Open` run over the backing-store model (billyfs.go
`Open`). -/
def bOpen (w : World) (name : String) : (Option FileA × Option GoErr) × World :=
  match mOpen w name with
  | (Except.error e, w') => ((none, some e), w')
  | (Except.ok h, w') => ((some ⟨h⟩, none), w')

/-- The adapter's `File.Write` run over the backing-store model: delegate
and wrap a non-nil error with the `write <name>` prefix (billyfile.go
`Write`). -/
def bWrite (w : World) (fl : FileA) (p : List Nat) : (Nat × Option GoErr) × World :=
  match mWrite w fl.f p with
  | ((n, some e), w') => ((n, some (GoErr.wrapped ("write " ++ mName w fl.f) e)), w')
  | ((n, none), w') => ((n, none), w')

/-- The adapter's `File.Read` run over the backing-store model (billyfile.go
`Read`). -/
def bRead (w : World) (fl : FileA) (n : Nat) : (List Nat × Option GoErr) × World :=
  match mRead w fl.f n with
  | ((bs, some e), w') => ((bs, some (GoErr.wrapped ("read " ++ mName w fl.f) e)), w')
  | ((bs, none), w') => ((bs, none), w')

/-- The adapter's `File.Close` run over the backing-store model
(billyfile.go `Close`). -/
def bClose (w : World) (fl : FileA) : Option GoErr × World :=
  match mClose w fl.f with
  | (some e, w') => (some (GoErr.wrapped ("close " ++ mName w fl.f) e), w')
  | (none, w') => (none, w')

/-- Read to completion through the adapter's `File.Read`: keep reading until
a read reports an error, succeeding with the accumulated bytes when that
error is (or wraps) EOF, as `io.ReadAll` does.  Fuel bounds the iteration. -/
def readFull (fl : FileA) (bufLen : Nat) : Nat → World → List Nat → Except GoErr (List Nat) × World
  | 0, w, _ => (Except.error (GoErr.errNew "out of fuel"), w)
  | Nat.succ fuel, w, acc =>
    match bRead w fl bufLen with
    | ((bs, none), w') => readFull fl bufLen fuel w' (acc ++ bs)
    | ((bs, some e), w') =>
      if errIs e GoErr.eof then (Except.ok (acc ++ bs), w') else (Except.error e, w')

/-- The composition of the claim: Create, write `B`, Close, Open, read to
completion, all through the adapter over the backing-store model, starting
from an empty store. -/
def roundTrip (name : String) (B : List Nat) : Except GoErr (List Nat) :=
  let w0 : World := ⟨[], [], 0⟩
  match bCreate w0 name with
  | ((some fl, none), w1) =>
    match bWrite w1 fl B with
    | ((_, none), w2) =>
      match bClose w2 fl with
      | (none, w3) =>
        match bOpen w3 name with
        | ((some fl2, none), w4) => (readFull fl2 B.length 2 w4 []).1
        | ((_, e), _) => Except.error (e.getD GoErr.errInvalid)
      | (some e, _) => Except.error e
    | ((_, some e), _) => Except.error e
  | ((_, e), _) => Except.error (e.getD GoErr.errInvalid)

/-- Concrete environment builder used by the witnesses: results of the
oracle operations are fixed to the given values. -/
def mkEnv (statR : Except GoErr FileInfo) (bfsR : Except GoErr SFS)
    (createR openR : Except GoErr Nat) (rdR : Except GoErr (List FileInfo))
    (hErr : Option GoErr) : Env :=
  ⟨fun _ _ => statR, fun _ _ => statR, fun _ _ => bfsR, fun _ => "/", fun _ => "/tmp",
   fun _ _ => createR, fun _ _ => openR, fun _ _ _ _ => createR,
   fun _ _ _ => hErr, fun _ _ => hErr, fun _ _ _ => hErr, fun _ _ _ => hErr,
   fun _ _ _ _ => hErr, fun _ _ _ _ => hErr, fun _ _ _ _ => hErr, fun _ _ _ => hErr,
   fun _ _ => Except.ok "t", fun _ _ => rdR, fun _ => hErr, fun _ => "fn",
   fun _ _ => (1, hErr), fun _ _ => (2, hErr), fun _ _ _ => (3, hErr),
   fun _ _ _ => (4, hErr), fun _ _ _ => (5, hErr), fun _ _ => hErr, fun _ => hErr⟩

/-- A symlink-capable unwrapped filesystem value used in concrete
instances. -/
def fsBase : SFS := SFS.base 0 true

/-- A once-isolated filesystem value (the usual state of the adapter's
inner field after construction). -/
def fsWrapped : SFS := SFS.isolated fsBase "/b"

/-- FileInfo of a directory, for concrete instances. -/
def infoDir : FileInfo := ⟨"d", 0, true⟩

/-- FileInfo of a plain file, for concrete instances. -/
def infoFile : FileInfo := ⟨"f", 3, false⟩

/-- Environment in which every oracle operation succeeds. -/
def envOK : Env := mkEnv (Except.ok infoDir) (Except.ok fsWrapped) (Except.ok 7) (Except.ok 8) (Except.ok [infoFile]) none

/-- Environment in which stat fails with EOF (standing for an arbitrary
storage error). -/
def envStatErr : Env := mkEnv (Except.error GoErr.eof) (Except.ok fsWrapped) (Except.ok 7) (Except.ok 8) (Except.ok []) none

/-- Environment in which stat reports a plain file. -/
def envNotDir : Env := mkEnv (Except.ok infoFile) (Except.ok fsWrapped) (Except.ok 7) (Except.ok 8) (Except.ok []) none

/-- Environment in which the basefs chroot helper fails. -/
def envBfsErr : Env := mkEnv (Except.ok infoDir) (Except.error GoErr.eof) (Except.ok 7) (Except.ok 8) (Except.ok []) none

/-- Environment in which opening a path fails. -/
def envOpenErr : Env := mkEnv (Except.ok infoDir) (Except.ok fsWrapped) (Except.ok 7) (Except.error GoErr.eof) (Except.ok []) none

/-- Environment in which directory enumeration fails. -/
def envRdErr : Env := mkEnv (Except.ok infoDir) (Except.ok fsWrapped) (Except.ok 7) (Except.ok 8) (Except.error GoErr.eof) none

/-- Environment in which every file-handle operation reports an error. -/
def envFileErr : Env := mkEnv (Except.ok infoDir) (Except.ok fsWrapped) (Except.ok 7) (Except.ok 8) (Except.ok []) (some GoErr.eof)

/-- Constant RNG oracle for concrete instances. -/
def gZero : Nat → Fin 52 := fun _ => (0 : Fin 52)

theorem errIs_self (e : GoErr) : errIs e e = true := by
  cases e <;> simp [errIs]

theorem errIs_wrapped (m : String) (e : GoErr) : errIs (GoErr.wrapped m e) e = true := by
  simp [errIs, errIs_self]

theorem newFS_some_iff (env : Env) (fs : SFS) (dir : String) :
    (newFS env fs dir).1.1.isSome = !(newFS env fs dir).1.2.isSome := by
  by_cases he : dir = ""
  · simp [newFS, he]
  · by_cases hab : isAbs dir
    · rcases hst : env.stat fs dir with e | info
      · simp [newFS, he, hab, hst]
      · by_cases hdir : info.dirFlag
        · rcases hb : env.basefsNewFS fs dir with e2 | fs2 <;>
            simp [newFS, he, hab, hst, hdir, hb]
        · simp [newFS, he, hab, hst, hdir]
    · simp [newFS, he, hab]

/-- C8: `Capabilities()` returns the constant go-billy full-capability value
on every call, for every adapter instance, independently of the wrapped
filesystem; it never reports a partial capability set. -/
theorem capabilities_always_full :
    ∀ f : Filesystem,
      capabilitiesM f = allCapabilities ∧
      allCapabilities = 63 ∧
      ∀ f2 : Filesystem, capabilitiesM f = capabilitiesM f2 := by
  intro f
  exact ⟨rfl, rfl, fun _ => rfl⟩

/-- C2 (counterexample): at the concrete adapter whose inner SFS is an
isolation wrapper over a symlink-capable base, and the relative path `x`,
`Chroot` hands the chroot helper the still-wrapped inner SFS and the
unresolved path — not the unwrapped filesystem and resolved absolute path
the claim describes: the single helper call differs from the claimed one in
both arguments. -/
theorem chroot_claim_counterexample :
    (chroot envOK ⟨fsWrapped⟩ "x").2 ≠
      [Call.basefsNewFSC (chrootSpecArgs (envOK.getwdE fsWrapped) ⟨fsWrapped⟩ "x").1
        (chrootSpecArgs (envOK.getwdE fsWrapped) ⟨fsWrapped⟩ "x").2] ∧
    fsWrapped ≠ (chrootSpecArgs (envOK.getwdE fsWrapped) ⟨fsWrapped⟩ "x").1 ∧
    "x" ≠ (chrootSpecArgs (envOK.getwdE fsWrapped) ⟨fsWrapped⟩ "x").2 := by
  refine ⟨?_, ?_, ?_⟩ <;> decide

/-- C2 (amended): `Chroot(path)` performs no path resolution and no
unwrapping: its only external call applies the chroot helper to the
adapter's current inner filesystem and the path argument exactly as given;
on helper success the new isolated filesystem is wrapped in a new adapter,
on failure a zero-value adapter is returned with the error. -/
theorem chroot_direct_delegation :
    ∀ (env : Env) (f : Filesystem) (p : String),
      (chroot env f p).2 = [Call.basefsNewFSC f.fs p] ∧
      (chroot env f p).1 =
        (match env.basefsNewFS f.fs p with
         | Except.error e => (some zeroAdapter, some e)
         | Except.ok fs2 => (some ⟨fs2⟩, none)) := by
  intro env f p
  rcases h : env.basefsNewFS f.fs p with e | fs2 <;>
    simp [chroot, h, zeroAdapter]

/-- C5: the suffix generator draws from the package random source with no
mutex operation anywhere in its trace — its externally visible behavior is
exactly the `n` unserialized `Intn(52)` draws.  (This is the formal core of
the code bug: the code's own comment and the spec promise a dedicated mutex
around the draws, but `randSeq` performs none, and `rand.Rand` values made
by `rand.New(rand.NewSource(...))` are not internally synchronized.) -/
theorem randSeq_draws_without_mutex :
    ∀ (g : Nat → Fin 52) (n : Nat),
      (randSeq g n).2 = (List.range n).map (fun _ => Call.randIntnC 52) ∧
      ((randSeq g n).2.all (fun c => !(isLockOp c))) = true := by
  intro g n
  refine ⟨rfl, ?_⟩
  simp [randSeq, isLockOp]

/-- C7: every file operation among Read, Write, ReadAt, WriteAt, Seek,
Close and Truncate returns the inner call's count or position value
unchanged; a nil inner error is returned as nil, and a non-nil inner error
is returned wrapped with a purely additive operation-name/path prefix, so
that the result still wraps the inner error in the `errors.Is` sense. -/
theorem file_ops_delegate :
    ∀ (env : Env) (fl : FileA) (p : List Nat) (bufLen : Nat) (off : Int)
      (whence : Nat) (size : Int),
      (fileWrite env fl p).1 = (env.writeH fl.f p).1 ∧
      (fileWrite env fl p).2 =
        (env.writeH fl.f p).2.map (fun e => GoErr.wrapped ("write " ++ env.fnameE fl.f) e) ∧
      (fileRead env fl bufLen).1 = (env.readH fl.f bufLen).1 ∧
      (fileRead env fl bufLen).2 =
        (env.readH fl.f bufLen).2.map (fun e => GoErr.wrapped ("read " ++ env.fnameE fl.f) e) ∧
      (fileReadAt env fl bufLen off).1 = (env.readAtH fl.f bufLen off).1 ∧
      (fileReadAt env fl bufLen off).2 =
        (env.readAtH fl.f bufLen off).2.map
          (fun e => GoErr.wrapped ("readat " ++ env.fnameE fl.f ++ " (offset=" ++ toString off ++ ")") e) ∧
      (fileWriteAt env fl p off).1 = (env.writeAtH fl.f p off).1 ∧
      (fileWriteAt env fl p off).2 =
        (env.writeAtH fl.f p off).2.map
          (fun e => GoErr.wrapped ("writeat " ++ env.fnameE fl.f ++ " (offset=" ++ toString off ++ ")") e) ∧
      (fileSeek env fl off whence).1 = (env.seekH fl.f off whence).1 ∧
      (fileSeek env fl off whence).2 =
        (env.seekH fl.f off whence).2.map
          (fun e => GoErr.wrapped
            ("seek " ++ env.fnameE fl.f ++ " (offset=" ++ toString off ++ ", whence=" ++ toString whence ++ ")") e) ∧
      (fileClose env fl) =
        (env.closeH fl.f).map (fun e => GoErr.wrapped ("close " ++ env.fnameE fl.f) e) ∧
      (fileTruncate env fl size) =
        (env.truncateH fl.f size).map
          (fun e => GoErr.wrapped ("truncate " ++ env.fnameE fl.f ++ " to " ++ toString size ++ " bytes") e) ∧
      (∀ m e, errIs (GoErr.wrapped m e) e = true) := by
  intro env fl p bufLen off whence size
  refine ⟨?_, ?_, ?_, ?_, ?_, ?_, ?_, ?_, ?_, ?_, ?_, ?_, errIs_wrapped⟩
  · rcases h : env.writeH fl.f p with ⟨n, _ | e⟩ <;> simp [fileWrite, h]
  · rcases h : env.writeH fl.f p with ⟨n, _ | e⟩ <;> simp [fileWrite, h]
  · rcases h : env.readH fl.f bufLen with ⟨n, _ | e⟩ <;> simp [fileRead, h]
  · rcases h : env.readH fl.f bufLen with ⟨n, _ | e⟩ <;> simp [fileRead, h]
  · rcases h : env.readAtH fl.f bufLen off with ⟨n, _ | e⟩ <;> simp [fileReadAt, h]
  · rcases h : env.readAtH fl.f bufLen off with ⟨n, _ | e⟩ <;> simp [fileReadAt, h]
  · rcases h : env.writeAtH fl.f p off with ⟨n, _ | e⟩ <;> simp [fileWriteAt, h]
  · rcases h : env.writeAtH fl.f p off with ⟨n, _ | e⟩ <;> simp [fileWriteAt, h]
  · rcases h : env.seekH fl.f off whence with ⟨n, _ | e⟩ <;> simp [fileSeek, h]
  · rcases h : env.seekH fl.f off whence with ⟨n, _ | e⟩ <;> simp [fileSeek, h]
  · rcases h : env.closeH fl.f with _ | e <;> simp [fileClose, h]
  · rcases h : env.truncateH fl.f size with _ | e <;> simp [fileTruncate, h]


/-- C3: for every dir and prefix, `TempFile` targets `dir` when nonempty and
the inner filesystem's TempDir otherwise; its candidate path is
`Join(targetDir, prefix ++ "_" ++ s)` where the suffix `s` has exactly five
characters all drawn from the 52-letter alphabet; it makes exactly one
Create call on the inner filesystem with that path, wrapping the handle on
success and returning the Create error unchanged on failure. -/
theorem tempFile_single_create :
    ∀ (env : Env) (g : Nat → Fin 52) (f : Filesystem) (dir pre : String),
      (randSeq g 5).1.length = 5 ∧
      ((randSeq g 5).1.data.all (fun c => decide (c ∈ letters))) = true ∧
      letters.length = 52 ∧
      ((tempFileM env g f dir pre).2.filter isCreateCall =
        [Call.createC f.fs
          (goJoin [(if dir = "" then env.tempDirE f.fs else dir), pre ++ "_" ++ (randSeq g 5).1])]) ∧
      ((tempFileM env g f dir pre).1 =
        match env.createE f.fs
            (goJoin [(if dir = "" then env.tempDirE f.fs else dir), pre ++ "_" ++ (randSeq g 5).1]) with
        | Except.ok h => (some ⟨h⟩, none)
        | Except.error e => (none, some e)) := by
  intro env g f dir pre
  have hs5 : (randSeq g 5).2 =
      [Call.randIntnC 52, Call.randIntnC 52, Call.randIntnC 52, Call.randIntnC 52,
       Call.randIntnC 52] := rfl
  have htrace : (tempFileM env g f dir pre).2 =
      (if dir = "" then [Call.tempDirC f.fs] else []) ++ (randSeq g 5).2 ++
        [Call.createC f.fs
          (goJoin [(if dir = "" then env.tempDirE f.fs else dir), pre ++ "_" ++ (randSeq g 5).1])] := by
    rcases hc : env.createE f.fs
        (goJoin [(if dir = "" then env.tempDirE f.fs else dir), pre ++ "_" ++ (randSeq g 5).1]) with e | hh <;>
      simp [tempFileM, hc]
  refine ⟨?_, ?_, letters_length, ?_, ?_⟩
  · simp [randSeq, String.length]
  · simp [randSeq, List.all_eq_true]
  · rw [htrace, hs5]
    by_cases hd : dir = "" <;>
      simp [hd, List.filter_append, List.filter, isCreateCall]
  · rcases hc : env.createE f.fs
        (goJoin [(if dir = "" then env.tempDirE f.fs else dir), pre ++ "_" ++ (randSeq g 5).1]) with e | hh <;>
      simp [tempFileM, hc]

/-- C1: `NewFS` performs the four validation checks in order, each
short-circuiting (the trace shows no stat call for the first two failures
and no chroot-helper call for any failure); every failure returns a nil
adapter with the stated error (the stat error passing through unchanged),
and only after all four checks pass is the chroot helper applied, its
result wrapped in a new adapter. -/
theorem newFS_validation :
    ∀ (env : Env) (fs : SFS) (dir : String),
      (newFS env fs "" = ((none, some GoErr.errInvalid), [])) ∧
      (dir ≠ "" → isAbs dir = false →
        newFS env fs dir = ((none, some (GoErr.errNew "not an absolute path")), [])) ∧
      (∀ e, isAbs dir = true → env.stat fs dir = Except.error e →
        newFS env fs dir = ((none, some e), [Call.statC fs dir])) ∧
      (∀ info, isAbs dir = true → env.stat fs dir = Except.ok info → info.dirFlag = false →
        newFS env fs dir = ((none, some (GoErr.errNew "not a directory")), [Call.statC fs dir])) ∧
      (∀ info, isAbs dir = true → env.stat fs dir = Except.ok info → info.dirFlag = true →
        (newFS env fs dir).2 = [Call.statC fs dir, Call.basefsNewFSC fs dir] ∧
        (∀ e2, env.basefsNewFS fs dir = Except.error e2 → (newFS env fs dir).1 = (none, some e2)) ∧
        (∀ fs2, env.basefsNewFS fs dir = Except.ok fs2 → (newFS env fs dir).1 = (some ⟨fs2⟩, none))) ∧
      ((newFS env fs dir).1.1.isSome = !(newFS env fs dir).1.2.isSome) := by
  intro env fs dir
  have habs : isAbs dir = true → dir ≠ "" := by
    intro h he
    subst he
    simp [isAbs] at h
  refine ⟨?_, ?_, ?_, ?_, ?_, ?_⟩
  · rfl
  · intro hne hab
    simp [newFS, hne, hab]
  · intro e hab hst
    simp [newFS, habs hab, hab, hst]
  · intro info hab hst hdir
    simp [newFS, habs hab, hab, hst, hdir]
  · intro info hab hst hdir
    refine ⟨?_, ?_, ?_⟩
    · rcases hb : env.basefsNewFS fs dir with e2 | fs2 <;>
        simp [newFS, habs hab, hab, hst, hdir, hb]
    · intro e2 hb
      simp [newFS, habs hab, hab, hst, hdir, hb]
    · intro fs2 hb
      simp [newFS, habs hab, hab, hst, hdir, hb]
  · by_cases he : dir = ""
    · simp [newFS, he]
    · by_cases hab : isAbs dir
      · rcases hst : env.stat fs dir with e | info
        · simp [newFS, he, hab, hst]
        · by_cases hdir : info.dirFlag
          · rcases hb : env.basefsNewFS fs dir with e2 | fs2 <;>
              simp [newFS, he, hab, hst, hdir, hb]
          · simp [newFS, he, hab, hst, hdir]
      · simp [newFS, he, hab]

/-- Witness for the constructor-validation theorem at concrete inputs: each
of the four failure checks fires with its stated error and trace, and the
all-checks-pass case returns the wrapped isolated filesystem. -/
theorem newFS_validation_witness :
    newFS envOK fsBase "" = ((none, some GoErr.errInvalid), []) ∧
    newFS envOK fsBase "rel" = ((none, some (GoErr.errNew "not an absolute path")), []) ∧
    newFS envStatErr fsBase "/d" = ((none, some GoErr.eof), [Call.statC fsBase "/d"]) ∧
    newFS envNotDir fsBase "/d" =
      ((none, some (GoErr.errNew "not a directory")), [Call.statC fsBase "/d"]) ∧
    (newFS envOK fsBase "/d").1 = (some ⟨fsWrapped⟩, none) := by
  refine ⟨(newFS_validation envOK fsBase "").1, ?_, ?_, ?_, ?_⟩
  · exact (newFS_validation envOK fsBase "rel").2.1 (by decide) (by decide)
  · exact (newFS_validation envStatErr fsBase "/d").2.2.1 GoErr.eof (by decide) rfl
  · exact (newFS_validation envNotDir fsBase "/d").2.2.2.1 infoFile (by decide) rfl rfl
  · exact ((newFS_validation envOK fsBase "/d").2.2.2.2.1 infoDir (by decide) rfl rfl).2.2
      fsWrapped rfl

/-- C4: `ReadDir` opens the path on the inner filesystem, reads all entries
with a single `Readdir(0)` enumeration call and closes the handle before
returning; an open failure propagates with no handle ever opened further
(the trace shows only the failed open), and an enumeration failure
propagates while the trace still records the close. -/
theorem readDir_single_enumeration_and_close :
    ∀ (env : Env) (f : Filesystem) (p : String),
      (∀ e, env.openE f.fs p = Except.error e →
        readDirM env f p = ((none, some e), [Call.openC f.fs p])) ∧
      (∀ h, env.openE f.fs p = Except.ok h →
        (readDirM env f p).2 = [Call.openC f.fs p, Call.readdirC h 0, Call.closeC h] ∧
        (∀ e, env.readdirE h 0 = Except.error e → (readDirM env f p).1 = (none, some e)) ∧
        (∀ l, env.readdirE h 0 = Except.ok l → (readDirM env f p).1 = (some l, none))) := by
  intro env f p
  constructor
  · intro e ho
    simp [readDirM, ho]
  · intro h ho
    refine ⟨?_, ?_, ?_⟩
    · rcases hr : env.readdirE h 0 with e | l <;> simp [readDirM, ho, hr]
    · intro e hr
      simp [readDirM, ho, hr]
    · intro l hr
      simp [readDirM, ho, hr]

/-- Witness for the ReadDir theorem at concrete inputs: a failed open, a
failed enumeration after a successful open, and a fully successful listing,
each with the stated result and call trace. -/
theorem readDir_witness :
    readDirM envOpenErr ⟨fsBase⟩ "/d" = ((none, some GoErr.eof), [Call.openC fsBase "/d"]) ∧
    ((readDirM envRdErr ⟨fsBase⟩ "/d").2 =
        [Call.openC fsBase "/d", Call.readdirC 8 0, Call.closeC 8] ∧
      (readDirM envRdErr ⟨fsBase⟩ "/d").1 = (none, some GoErr.eof)) ∧
    (readDirM envOK ⟨fsBase⟩ "/d").1 = (some [infoFile], none) := by
  refine ⟨?_, ⟨?_, ?_⟩, ?_⟩
  · exact (readDir_single_enumeration_and_close envOpenErr ⟨fsBase⟩ "/d").1 GoErr.eof rfl
  · exact ((readDir_single_enumeration_and_close envRdErr ⟨fsBase⟩ "/d").2 8 rfl).1
  · exact ((readDir_single_enumeration_and_close envRdErr ⟨fsBase⟩ "/d").2 8 rfl).2.1 GoErr.eof rfl
  · exact ((readDir_single_enumeration_and_close envOK ⟨fsBase⟩ "/d").2 8 rfl).2.2 [infoFile] rfl

/-- C9: no `Filesystem` operation changes the receiver's inner filesystem
field after construction — the receiver after every operation equals the
receiver before — and `Chroot` produces a brand-new adapter wrapping the
chroot helper's freshly produced isolated filesystem rather than mutating
the existing one. -/
theorem fs_receiver_immutable :
    ∀ (env : Env) (g : Nat → Fin 52) (f : Filesystem) (op : FSOp),
      (runFSOp env g f op).2.2 = f ∧
      (∀ p fs2, env.basefsNewFS f.fs p = Except.ok fs2 →
        (runFSOp env g f (FSOp.chrootOp p)).1 = FSResult.fsR (some ⟨fs2⟩, none) ∧
        (runFSOp env g f (FSOp.chrootOp p)).2.2 = f) := by
  intro env g f op
  constructor
  · cases op <;> rfl
  · intro p fs2 hb
    exact ⟨by simp [runFSOp, chroot, hb], rfl⟩

/-- Witness for the receiver-immutability theorem at concrete inputs. -/
theorem fs_receiver_immutable_witness :
    (runFSOp envOK gZero ⟨fsBase⟩ (FSOp.statOp "x")).2.2 = ⟨fsBase⟩ ∧
    (runFSOp envOK gZero ⟨fsBase⟩ (FSOp.chrootOp "/p")).1 =
      FSResult.fsR (some ⟨fsWrapped⟩, none) ∧
    (runFSOp envOK gZero ⟨fsBase⟩ (FSOp.chrootOp "/p")).2.2 = ⟨fsBase⟩ := by
  refine ⟨(fs_receiver_immutable envOK gZero ⟨fsBase⟩ (FSOp.statOp "x")).1, ?_, ?_⟩
  · exact ((fs_receiver_immutable envOK gZero ⟨fsBase⟩ FSOp.rootOp).2 "/p" fsWrapped rfl).1
  · exact ((fs_receiver_immutable envOK gZero ⟨fsBase⟩ FSOp.rootOp).2 "/p" fsWrapped rfl).2

/-- C10 (counterexample): after a failed `Chroot` the returned adapter is
the non-nil zero-value adapter, yet invoking `Capabilities()` on it issues
no call at all against the nil inner filesystem (it returns the constant
full-capability value), so it is not the case that every filesystem
operation on that value dereferences the nil inner filesystem. -/
theorem chroot_error_capabilities_no_deref :
    (chroot envBfsErr ⟨fsBase⟩ "/p").1 = (some zeroAdapter, some GoErr.eof) ∧
    (runFSOp envBfsErr gZero zeroAdapter FSOp.capabilitiesOp).2.1 = [] ∧
    (runFSOp envBfsErr gZero zeroAdapter FSOp.capabilitiesOp).1 = FSResult.capR allCapabilities ∧
    ((runFSOp envBfsErr gZero zeroAdapter FSOp.capabilitiesOp).2.1.any
      (fun c => callReceiver c = some SFS.nilFS)) = false := by
  exact ⟨rfl, rfl, rfl, rfl⟩

/-- C10 (amended): on the error path `Chroot` returns a non-nil pointer to
the zero-value adapter (inner filesystem nil) together with the error,
whereas `NewFS` returns a nil adapter exactly when it returns an error; on
the zero-value adapter, every operation that delegates to the inner
filesystem issues an external call carrying the nil inner filesystem (a nil
dereference in Go), while the pure operations (Join, Capabilities, Root) do
not touch it. -/
theorem chroot_error_zero_adapter :
    ∀ (env : Env) (g : Nat → Fin 52) (f : Filesystem) (p : String) (op : FSOp),
      (∀ e, env.basefsNewFS f.fs p = Except.error e →
        (chroot env f p).1 = (some zeroAdapter, some e)) ∧
      ((newFS env f.fs p).1.1.isSome = !(newFS env f.fs p).1.2.isSome) ∧
      (delegatesToInner op = true →
        ((runFSOp env g zeroAdapter op).2.1.any
          (fun c => callReceiver c = some SFS.nilFS)) = true) ∧
      (delegatesToInner op = false →
        (runFSOp env g zeroAdapter op).2.1 = []) := by
  intro env g f p op
  refine ⟨?_, newFS_some_iff env f.fs p, ?_, ?_⟩
  · intro e hb
    simp [chroot, hb, zeroAdapter]
  · intro hop
    cases op with
    | createOp name =>
      rcases hc : env.createE SFS.nilFS name with e | h <;>
        simp [runFSOp, createM, zeroAdapter, hc, callReceiver]
    | openOp name =>
      rcases hc : env.openE SFS.nilFS name with e | h <;>
        simp [runFSOp, openM, zeroAdapter, hc, callReceiver]
    | openFileOp name flag perm =>
      rcases hc : env.openFileE SFS.nilFS name flag perm with e | h <;>
        simp [runFSOp, openFileM, zeroAdapter, hc, callReceiver]
    | statOp name => simp [runFSOp, statM, zeroAdapter, callReceiver]
    | lstatOp name => simp [runFSOp, lstatM, zeroAdapter, callReceiver]
    | renameOp o n => simp [runFSOp, renameM, zeroAdapter, callReceiver]
    | removeOp name => simp [runFSOp, removeM, zeroAdapter, callReceiver]
    | mkdirAllOp name perm => simp [runFSOp, mkdirAllM, zeroAdapter, callReceiver]
    | chmodOp name mode => simp [runFSOp, chmodM, zeroAdapter, callReceiver]
    | chownOp name uid gid => simp [runFSOp, chownM, zeroAdapter, callReceiver]
    | lchownOp name uid gid => simp [runFSOp, lchownM, zeroAdapter, callReceiver]
    | chtimesOp name atime mtime => simp [runFSOp, chtimesM, zeroAdapter, callReceiver]
    | symlinkOp t l => simp [runFSOp, symlinkM, zeroAdapter, callReceiver]
    | readlinkOp l => simp [runFSOp, readlinkM, zeroAdapter, callReceiver]
    | joinOp elems => simp [delegatesToInner] at hop
    | capabilitiesOp => simp [delegatesToInner] at hop
    | rootOp => simp [delegatesToInner] at hop
    | readDirOp pth =>
      rcases ho : env.openE SFS.nilFS pth with e | h
      · simp [runFSOp, readDirM, zeroAdapter, ho, callReceiver]
      · rcases hr : env.readdirE h 0 with e2 | l <;>
          simp [runFSOp, readDirM, zeroAdapter, ho, hr, callReceiver]
    | chrootOp pth =>
      rcases hb : env.basefsNewFS SFS.nilFS pth with e | fs2 <;>
        simp [runFSOp, chroot, zeroAdapter, hb, callReceiver]
    | tempFileOp dirA preA =>
      rcases hc : env.createE SFS.nilFS
          (goJoin [(if dirA = "" then env.tempDirE SFS.nilFS else dirA),
            preA ++ "_" ++ (randSeq g 5).1]) with e | h <;>
        simp [runFSOp, tempFileM, zeroAdapter, hc, List.any_append, callReceiver]
  · intro hop
    cases op <;> simp_all [delegatesToInner, runFSOp]

/-- Witness for the zero-adapter theorem at concrete inputs: a failed
chroot-helper call yields the zero-value adapter with the error; `Stat` on
the zero-value adapter issues a call carrying the nil inner filesystem; and
`Join` on it issues no external call. -/
theorem chroot_error_zero_adapter_witness :
    (chroot envBfsErr ⟨fsBase⟩ "/p").1 = (some zeroAdapter, some GoErr.eof) ∧
    ((runFSOp envBfsErr gZero zeroAdapter (FSOp.statOp "x")).2.1.any
      (fun c => callReceiver c = some SFS.nilFS)) = true ∧
    (runFSOp envBfsErr gZero zeroAdapter (FSOp.joinOp ["a", "b"])).2.1 = [] := by
  refine ⟨?_, ?_, ?_⟩
  · exact (chroot_error_zero_adapter envBfsErr gZero ⟨fsBase⟩ "/p" FSOp.rootOp).1 GoErr.eof rfl
  · exact (chroot_error_zero_adapter envBfsErr gZero ⟨fsBase⟩ "/p" (FSOp.statOp "x")).2.2.1 rfl
  · exact (chroot_error_zero_adapter envBfsErr gZero ⟨fsBase⟩ "/p" (FSOp.joinOp ["a", "b"])).2.2.2 rfl

theorem readFull_succ (fl : FileA) (bufLen fuel : Nat) (w : World) (acc : List Nat) :
    readFull fl bufLen (Nat.succ fuel) w acc =
      match bRead w fl bufLen with
      | ((bs, none), w') => readFull fl bufLen fuel w' (acc ++ bs)
      | ((bs, some e), w') =>
        if errIs e GoErr.eof then (Except.ok (acc ++ bs), w') else (Except.error e, w') := rfl

/-- C6: for every name and byte sequence `B`, writing `B` through the file
returned by the adapter's `Create`, closing it, reopening through `Open`
and reading to completion yields exactly `B` — the adapter's
Create/Write/Close/Open/Read composition over the modelled backing store
round-trips every byte sequence. -/
theorem create_write_close_open_read_roundtrip :
    ∀ (name : String) (B : List Nat), roundTrip name B = Except.ok B := by
  intro name B
  cases B with
  | nil =>
    simp [roundTrip, bCreate, mCreate, bWrite, mWrite, bClose, mClose, bOpen, mOpen,
          readFull, bRead, mRead, mName, assocGet, assocSet, errIs]
  | cons b bs =>
    simp [roundTrip, bCreate, mCreate, bWrite, mWrite, bClose, mClose, bOpen, mOpen,
          readFull, bRead, mRead, mName, assocGet, assocSet, errIs, List.take_length]
